import Mathlib

/-!
Verification of the swap-matching engine of the Section-Swap-KIIT repository
(`server.js`), shallowly embedded in Lean 4.

The embedding covers:
* the student records as the engine reads them from the `students` table
  (`RawStudent`, with the raw `desired_sections` column modelled by
  `DesiredField`), and the parsed records (`VStudent`) built by the
  per-record `JSON.parse` loop of `findMultiStepSwap` / `checkAllStudentMatches`;
* `getCandidates`, `findSwapCycle` and `findMultiStepSwap` (server.js:1280-1558);
* the per-target search loop of the `/api/find-swap` handler
  (server.js:766-883): direct-partner query, direct-before-rotation order and
  priority iteration (`searchTarget`, `findSwapLoop`);
* `checkAllStudentMatches` (server.js:1561-1657).

Display-only columns (name, roll number, phone, email) never influence the
control flow of the matching engine and are omitted from the records.
Database result lists are modelled as Lean lists in the order the store
returns them; SQL `WHERE` clauses become list filters.
-/

/-- Model of the raw `desired_sections` column as the JavaScript code sees it:
`missing` is an absent/NULL/empty (falsy) value, `malformed` a string on which
`JSON.parse` throws, `notArray` a string that parses to a JSON value that is
not an array (so that a subsequent `.includes` call throws), and `array xs`
a string that parses to the array `xs`. -/
inductive DesiredField where
  | missing : DesiredField
  | malformed : DesiredField
  | notArray : DesiredField
  | array (xs : List String) : DesiredField
deriving DecidableEq

/-- A row of the `students` table, restricted to the columns the matching
engine reads. -/
structure RawStudent where
  id : Nat
  current_section : String
  desired_sections : DesiredField
  batch : String
deriving DecidableEq

/-- A student record after the engine has parsed `desired_sections`
(the `{...student, desired_sections_parsed}` objects pushed onto
`validStudents` in server.js:1334-1337). -/
structure VStudent where
  id : Nat
  current_section : String
  desired_sections_parsed : List String
  batch : String
deriving DecidableEq

/-- The per-record eligibility parse of server.js:1326-1341: a record
contributes a parsed desired-section list exactly when the column is present,
parses, is an array and is non-empty. -/
def parseEligible : DesiredField → Option (List String)
  | DesiredField.array xs => if xs.isEmpty then none else some xs
  | _ => none

/-- Builds the parsed record for one row, `none` when the row is skipped. -/
def toValid (r : RawStudent) : Option VStudent :=
  match parseEligible r.desired_sections with
  | some xs => some ⟨r.id, r.current_section, xs, r.batch⟩
  | none => none

/-- The `validStudents` list built by the parsing loop of
`findMultiStepSwap` (server.js:1325-1341): malformed rows are dropped,
well-formed rows are kept in order. -/
def toValidStudents (l : List RawStudent) : List VStudent :=
  l.filterMap toValid

/-- `JSON.parse(currentUser.desired_sections || '[]')` followed by
`.includes` (server.js:1359): a missing column behaves as the empty list;
a malformed or non-array value makes the function throw, which the caller
`findMultiStepSwap` catches and turns into `null` — modelled as `none`. -/
def userDesiredOf : DesiredField → Option (List String)
  | DesiredField.missing => some []
  | DesiredField.malformed => none
  | DesiredField.notArray => none
  | DesiredField.array xs => some xs

/-- The filter predicate of `getCandidates` (server.js:1369-1383):
occupant of `fromSection`, current section not excluded, and (when a
`toSection` is given) desiring `toSection`. -/
def candPredB (fromSection : String) (toSection : Option String)
    (excludeSections : List String) (s : VStudent) : Bool :=
  s.current_section == fromSection &&
    !(excludeSections.contains s.current_section) &&
    (match toSection with
     | none => true
     | some t => s.desired_sections_parsed.contains t)

/-- `getCandidates` of `findSwapCycle` (server.js:1368-1386): filter the
pool, keep the first `MAX_CANDIDATES = 5`. -/
def getCandidates (students : List VStudent) (fromSection : String)
    (toSection : Option String) (excludeSections : List String) : List VStudent :=
  (students.filter (candPredB fromSection toSection excludeSections)).take 5

/-- The occupant recorded on one step of a returned chain: either the
requesting user (the raw record passed as `currentUser`) or a parsed
candidate from the pool. -/
inductive Occupant where
  | requester (u : RawStudent) : Occupant
  | candidate (s : VStudent) : Occupant
deriving DecidableEq

/-- The current section of the student recorded on a step. -/
def Occupant.current_section : Occupant → String
  | Occupant.requester u => u.current_section
  | Occupant.candidate s => s.current_section

/-- One leg of a returned swap chain, embedding the step objects of
server.js with fields from, to, student, isCurrentUser. `fromS`/`toS` embed
the JS fields `from`/`to` (`from` is a Lean keyword). -/
structure SwapStep where
  fromS : String
  toS : String
  student : Occupant
  isCurrentUser : Bool
deriving DecidableEq

/-- The `swapLength === 2` branch of `findSwapCycle` (server.js:1391-1412). -/
def twoStepSearch (startSection targetSection : String) (students : List VStudent)
    (currentUser : RawStudent) : Option (List SwapStep) :=
  match getCandidates students targetSection (some startSection) [] with
  | [] => none
  | d :: _ =>
      some [⟨startSection, targetSection, Occupant.requester currentUser, true⟩,
            ⟨targetSection, startSection, Occupant.candidate d, false⟩]

/-- The `swapLength === 3` branch of `findSwapCycle` (server.js:1414-1445). -/
def threeStepSearch (startSection targetSection : String) (students : List VStudent)
    (currentUser : RawStudent) (userDesiredSections : List String) :
    Option (List SwapStep) :=
  userDesiredSections.findSome? fun desiredA =>
    if desiredA = startSection ∨ desiredA = targetSection then none
    else
      (getCandidates students desiredA (some targetSection) [startSection]).findSome?
        fun studentA =>
          match getCandidates students targetSection (some startSection) [desiredA] with
          | [] => none
          | d :: _ =>
              some [⟨startSection, desiredA, Occupant.requester currentUser, true⟩,
                    ⟨desiredA, targetSection, Occupant.candidate studentA, false⟩,
                    ⟨targetSection, startSection, Occupant.candidate d, false⟩]

/-- The `swapLength === 4` branch of `findSwapCycle` (server.js:1447-1500). -/
def fourStepSearch (startSection targetSection : String) (students : List VStudent)
    (currentUser : RawStudent) (userDesiredSections : List String) :
    Option (List SwapStep) :=
  userDesiredSections.findSome? fun desiredA =>
    if desiredA = startSection ∨ desiredA = targetSection then none
    else
      ((getCandidates students desiredA none [startSection]).take 5).findSome?
        fun studentA =>
          studentA.desired_sections_parsed.findSome? fun desiredB =>
            if desiredB = startSection ∨ desiredB = targetSection ∨ desiredB = desiredA then
              none
            else
              (getCandidates students desiredB (some targetSection)
                  [startSection, desiredA]).findSome? fun studentB =>
                match getCandidates students targetSection (some startSection)
                    [desiredA, desiredB] with
                | [] => none
                | d :: _ =>
                    some [⟨startSection, desiredA, Occupant.requester currentUser, true⟩,
                          ⟨desiredA, desiredB, Occupant.candidate studentA, false⟩,
                          ⟨desiredB, targetSection, Occupant.candidate studentB, false⟩,
                          ⟨targetSection, startSection, Occupant.candidate d, false⟩]

/-- The `swapLength === 5` branch of `findSwapCycle` (server.js:1502-1552). -/
def fiveStepSearch (startSection targetSection : String) (students : List VStudent)
    (currentUser : RawStudent) (userDesiredSections : List String) :
    Option (List SwapStep) :=
  userDesiredSections.findSome? fun desiredA =>
    if desiredA = startSection ∨ desiredA = targetSection then none
    else
      ((getCandidates students desiredA none [startSection]).take 5).findSome?
        fun studentA =>
          studentA.desired_sections_parsed.findSome? fun desiredB =>
            if desiredB = startSection ∨ desiredB = targetSection ∨ desiredB = desiredA then
              none
            else
              ((getCandidates students desiredB none [startSection, desiredA]).take 5).findSome?
                fun studentB =>
                  studentB.desired_sections_parsed.findSome? fun desiredC =>
                    if desiredC = startSection ∨ desiredC = targetSection ∨
                        desiredC = desiredA ∨ desiredC = desiredB then none
                    else
                      (getCandidates students desiredC (some targetSection)
                          [startSection, desiredA, desiredB]).findSome? fun studentC =>
                        match getCandidates students targetSection (some startSection)
                            [desiredA, desiredB, desiredC] with
                        | [] => none
                        | d :: _ =>
                            some [⟨startSection, desiredA, Occupant.requester currentUser, true⟩,
                                  ⟨desiredA, desiredB, Occupant.candidate studentA, false⟩,
                                  ⟨desiredB, desiredC, Occupant.candidate studentB, false⟩,
                                  ⟨desiredC, targetSection, Occupant.candidate studentC, false⟩,
                                  ⟨targetSection, startSection, Occupant.candidate d, false⟩]

/-- `findSwapCycle` (server.js:1353-1558): guard on the requester record and
on the target being desired, then try chain lengths 2, 3, 4, 5 in order and
return the first chain found.  The `maxDepth` parameter is accepted, and
ignored, exactly as in the source. -/
def findSwapCycle (startSection targetSection : String) (students : List VStudent)
    (maxDepth : Nat) (currentUser : Option RawStudent) : Option (List SwapStep) :=
  match currentUser with
  | none => none
  | some cu =>
      match userDesiredOf cu.desired_sections with
      | none => none
      | some userDesiredSections =>
          if userDesiredSections.contains targetSection then
            match twoStepSearch startSection targetSection students cu with
            | some p => some p
            | none =>
                match threeStepSearch startSection targetSection students cu
                    userDesiredSections with
                | some p => some p
                | none =>
                    match fourStepSearch startSection targetSection students cu
                        userDesiredSections with
                    | some p => some p
                    | none =>
                        fiveStepSearch startSection targetSection students cu
                          userDesiredSections
          else none

/-- The pool query of `findMultiStepSwap` (server.js:1302-1322):
all students other than the requester, restricted to `filterBatch` when one
is known. -/
def studentsQuery (allStudents : List RawStudent) (excludeId : Nat)
    (filterBatch : Option String) : List RawStudent :=
  allStudents.filter fun s =>
    s.id != excludeId &&
      (match filterBatch with
       | some b => s.batch == b
       | none => true)

/-- `findMultiStepSwap` (server.js:1280-1350): fetch the requester, build the
batch-scoped pool, parse it, and run `findSwapCycle`.  Any exception inside
(including a malformed requester `desired_sections`) is caught and becomes
`null`, which `userDesiredOf` already models. -/
def findMultiStepSwap (allStudents : List RawStudent) (fromSection toSection : String)
    (excludeId : Nat) (batch : Option String) : Option (List SwapStep) :=
  let currentUser := allStudents.find? fun s => s.id == excludeId
  let filterBatch : Option String :=
    match batch with
    | some b => some b
    | none => currentUser.map RawStudent.batch
  findSwapCycle fromSection toSection
    (toValidStudents (studentsQuery allStudents excludeId filterBatch)) 4 currentUser

/-! ### Helper lemmas about the candidate enumeration -/

theorem findSome?_none_of_all {α β : Type} (f : α → Option β) (l : List α)
    (h : ∀ x ∈ l, f x = none) : l.findSome? f = none := by
  induction l with
  | nil => rfl
  | cons a t ih =>
      rw [List.findSome?_cons, h a (List.mem_cons_self a t)]
      exact ih fun x hx => h x (List.mem_cons_of_mem a hx)

theorem contains_eq_false_of_not_mem (l : List String) (t : String) (h : t ∉ l) :
    l.contains t = false := by
  cases hc : l.contains t with
  | false => rfl
  | true => exact absurd (List.elem_iff.mp hc) h

/-- The exclusion list of `getCandidates` only ever tests the candidate's own
current section, which equals `fromSection`; so whenever `fromSection` is not
excluded the exclusion list is inert. -/
theorem getCandidates_exclude_inert (students : List VStudent) (fromSection : String)
    (toSection : Option String) (excl : List String)
    (h : excl.contains fromSection = false) :
    getCandidates students fromSection toSection excl =
      getCandidates students fromSection toSection [] := by
  unfold getCandidates
  congr 1
  apply List.filter_congr
  intro x _
  unfold candPredB
  cases hcf : (x.current_section == fromSection) with
  | false => simp [hcf]
  | true =>
      have hx : x.current_section = fromSection := beq_iff_eq.mp hcf
      rw [hx, h]
      simp

theorem mem_getCandidates_current (students : List VStudent) (fromSection : String)
    (toSection : Option String) (x : VStudent) (e : List String)
    (h : x ∈ getCandidates students fromSection toSection e) :
    x.current_section = fromSection := by
  unfold getCandidates at h
  have hf := List.of_mem_filter (List.mem_of_mem_take h)
  unfold candPredB at hf
  have h1 : (x.current_section == fromSection) = true := by
    cases hcf : (x.current_section == fromSection) with
    | true => rfl
    | false => simp [hcf] at hf
  exact beq_iff_eq.mp h1

/-- If the direct candidate list (occupants of the target desiring the start
section, with an empty exclusion list) is empty, the 3-step branch cannot
close and returns nothing. -/
theorem threeStepSearch_eq_none (startSection targetSection : String)
    (students : List VStudent) (cu : RawStudent) (uds : List String)
    (hdc : getCandidates students targetSection (some startSection) [] = []) :
    threeStepSearch startSection targetSection students cu uds = none := by
  apply findSome?_none_of_all
  intro a _
  by_cases hg : a = startSection ∨ a = targetSection
  · simp [hg]
  · rw [if_neg hg]
    apply findSome?_none_of_all
    intro x _
    have hat : ([a].contains targetSection) = false := by
      apply contains_eq_false_of_not_mem
      simp
      intro hh
      exact hg (Or.inr hh.symm)
    rw [getCandidates_exclude_inert students targetSection (some startSection) [a] hat, hdc]

/-- Same for the 4-step branch. -/
theorem fourStepSearch_eq_none (startSection targetSection : String)
    (students : List VStudent) (cu : RawStudent) (uds : List String)
    (hdc : getCandidates students targetSection (some startSection) [] = []) :
    fourStepSearch startSection targetSection students cu uds = none := by
  apply findSome?_none_of_all
  intro a _
  by_cases hg : a = startSection ∨ a = targetSection
  · simp [hg]
  · rw [if_neg hg]
    apply findSome?_none_of_all
    intro x _
    apply findSome?_none_of_all
    intro b _
    by_cases hgb : b = startSection ∨ b = targetSection ∨ b = a
    · simp [hgb]
    · rw [if_neg hgb]
      apply findSome?_none_of_all
      intro y _
      have hat : ([a, b].contains targetSection) = false := by
        apply contains_eq_false_of_not_mem
        simp
        constructor
        · intro hh
          exact hg (Or.inr hh.symm)
        · intro hh
          exact hgb (Or.inr (Or.inl hh.symm))
      rw [getCandidates_exclude_inert students targetSection (some startSection) [a, b] hat,
        hdc]

/-- Same for the 5-step branch. -/
theorem fiveStepSearch_eq_none (startSection targetSection : String)
    (students : List VStudent) (cu : RawStudent) (uds : List String)
    (hdc : getCandidates students targetSection (some startSection) [] = []) :
    fiveStepSearch startSection targetSection students cu uds = none := by
  apply findSome?_none_of_all
  intro a _
  by_cases hg : a = startSection ∨ a = targetSection
  · simp [hg]
  · rw [if_neg hg]
    apply findSome?_none_of_all
    intro x _
    apply findSome?_none_of_all
    intro b _
    by_cases hgb : b = startSection ∨ b = targetSection ∨ b = a
    · simp [hgb]
    · rw [if_neg hgb]
      apply findSome?_none_of_all
      intro y _
      apply findSome?_none_of_all
      intro c _
      by_cases hgc : c = startSection ∨ c = targetSection ∨ c = a ∨ c = b
      · simp [hgc]
      · rw [if_neg hgc]
        apply findSome?_none_of_all
        intro z _
        have hat : ([a, b, c].contains targetSection) = false := by
          apply contains_eq_false_of_not_mem
          simp
          refine ⟨fun hh => hg (Or.inr hh.symm), fun hh => hgb (Or.inr (Or.inl hh.symm)),
            fun hh => hgc (Or.inr (Or.inl hh.symm))⟩
        rw [getCandidates_exclude_inert students targetSection (some startSection)
          [a, b, c] hat, hdc]

/-- Structure theorem for `findSwapCycle`: because the closing candidate test
of the 3-, 4- and 5-step branches coincides with the 2-step direct test
(the exclusion lists never contain the target section), those branches can
only succeed when the 2-step branch already has, so every chain the function
returns is the 2-step chain built from the head of the direct candidate
list. -/
theorem findSwapCycle_shape (startSection targetSection : String)
    (students : List VStudent) (d : Nat) (cu : Option RawStudent) (p : List SwapStep)
    (H : findSwapCycle startSection targetSection students d cu = some p) :
    ∃ c uds dc rest,
      cu = some c ∧
      userDesiredOf c.desired_sections = some uds ∧
      uds.contains targetSection = true ∧
      getCandidates students targetSection (some startSection) [] = dc :: rest ∧
      p = [⟨startSection, targetSection, Occupant.requester c, true⟩,
           ⟨targetSection, startSection, Occupant.candidate dc, false⟩] := by
  cases cu with
  | none => simp [findSwapCycle] at H
  | some c =>
      cases hud : userDesiredOf c.desired_sections with
      | none =>
          simp only [findSwapCycle, hud] at H
          exact Option.noConfusion H
      | some uds =>
          cases hct : uds.contains targetSection with
          | false =>
              simp [findSwapCycle, hud, hct] at H
              have hc' : uds.contains targetSection = true := List.elem_iff.mpr H.1
              rw [hct] at hc'
              exact Bool.noConfusion hc'
          | true =>
              cases hdc : getCandidates students targetSection (some startSection) [] with
              | nil =>
                  have h2 : twoStepSearch startSection targetSection students c = none := by
                    rw [twoStepSearch, hdc]
                  have h3 := threeStepSearch_eq_none startSection targetSection students c uds hdc
                  have h4 := fourStepSearch_eq_none startSection targetSection students c uds hdc
                  have h5 := fiveStepSearch_eq_none startSection targetSection students c uds hdc
                  simp [findSwapCycle, hud, hct, h2, h3, h4, h5] at H
              | cons dc rest =>
                  refine ⟨c, uds, dc, rest, rfl, hud, hct, rfl, ?_⟩
                  have h2 : twoStepSearch startSection targetSection students c =
                      some [⟨startSection, targetSection, Occupant.requester c, true⟩,
                            ⟨targetSection, startSection, Occupant.candidate dc, false⟩] := by
                    rw [twoStepSearch, hdc]
                  simp only [findSwapCycle, hud, hct, if_true, h2] at H
                  exact (Option.some_inj.mp H).symm

/-! ### Claim theorems about the rotation search -/

/-- C1: every chain returned by the rotation search starts at the requester's
current section, ends back at the requester's current section, has between 2
and 5 steps inclusive, and every non-requester step's assigned student
currently occupies that step's from-section. -/
theorem rotation_closure (startSection targetSection : String)
    (students : List VStudent) (d : Nat) (cu : Option RawStudent) (p : List SwapStep)
    (H : findSwapCycle startSection targetSection students d cu = some p) :
    2 ≤ p.length ∧ p.length ≤ 5 ∧
    (∃ first, p.head? = some first ∧ first.fromS = startSection) ∧
    (∃ last, p.getLast? = some last ∧ last.toS = startSection) ∧
    (∀ st ∈ p, st.isCurrentUser = false →
      ∃ v, st.student = Occupant.candidate v ∧ v.current_section = st.fromS) := by
  obtain ⟨c, uds, dc, rest, -, -, -, hdc, hp⟩ := findSwapCycle_shape _ _ _ _ _ _ H
  have hdcc : dc.current_section = targetSection :=
    mem_getCandidates_current students targetSection (some startSection) dc []
      (by rw [hdc]; exact List.mem_cons_self _ _)
  subst hp
  refine ⟨by simp, by simp, ⟨_, rfl, rfl⟩, ⟨_, rfl, rfl⟩, ?_⟩
  intro st hst hfalse
  rcases List.mem_cons.mp hst with h1 | h2
  · rw [h1] at hfalse
    exact Bool.noConfusion hfalse
  · rcases List.mem_cons.mp h2 with h3 | h4
    · exact ⟨dc, by rw [h3], by rw [h3]; exact hdcc⟩
    · exact absurd h4 (List.not_mem_nil st)

/-- C2: in every returned chain the requester's own step — the first one —
moves directly from the requester's current section to the target section;
the target section is where the requester lands. -/
theorem rotation_first_step_to_target (startSection targetSection : String)
    (students : List VStudent) (d : Nat) (cu : Option RawStudent) (p : List SwapStep)
    (H : findSwapCycle startSection targetSection students d cu = some p) :
    ∃ c first rest, cu = some c ∧ p = first :: rest ∧
      first.fromS = startSection ∧ first.toS = targetSection ∧
      first.student = Occupant.requester c ∧ first.isCurrentUser = true := by
  obtain ⟨c, uds, dc, rest, hcu, -, -, -, hp⟩ := findSwapCycle_shape _ _ _ _ _ _ H
  exact ⟨c, _, _, hcu, hp, rfl, rfl, rfl, rfl⟩

/-- C3: the rotation search returns nothing when the requester record is
absent or when the target section is not in the requester's desired list,
and a chain can only be returned when the target is desired. -/
theorem rotation_requires_desired_target (startSection targetSection : String)
    (students : List VStudent) (d : Nat) :
    (findSwapCycle startSection targetSection students d none = none) ∧
    (∀ cu uds, userDesiredOf cu.desired_sections = some uds →
      targetSection ∉ uds →
      findSwapCycle startSection targetSection students d (some cu) = none) ∧
    (∀ cu p, findSwapCycle startSection targetSection students d cu = some p →
      ∃ c uds, cu = some c ∧ userDesiredOf c.desired_sections = some uds ∧
        targetSection ∈ uds) := by
  refine ⟨rfl, ?_, ?_⟩
  · intro cu uds h1 h2
    simp [findSwapCycle, h1, h2]
  · intro cu p H
    obtain ⟨c, uds, dc, rest, hcu, hud, hct, -, -⟩ := findSwapCycle_shape _ _ _ _ _ _ H
    exact ⟨c, uds, hcu, hud, List.elem_iff.mp hct⟩

/-- C10: in every returned chain, the from-sections of the steps are pairwise
distinct, and exactly the first step is the requester's move. -/
theorem rotation_distinct_sections_and_flags (startSection targetSection : String)
    (students : List VStudent) (d : Nat) (cu : Option RawStudent) (p : List SwapStep)
    (hne : startSection ≠ targetSection)
    (H : findSwapCycle startSection targetSection students d cu = some p) :
    (p.map SwapStep.fromS).Nodup ∧
    (∃ first rest, p = first :: rest ∧ first.isCurrentUser = true ∧
      ∀ st ∈ rest, st.isCurrentUser = false) := by
  obtain ⟨c, uds, dc, rest, -, -, -, -, hp⟩ := findSwapCycle_shape _ _ _ _ _ _ H
  subst hp
  refine ⟨by simp [hne], _, _, rfl, rfl, ?_⟩
  intro st hst
  rcases List.mem_cons.mp hst with h1 | h2
  · rw [h1]
  · exact absurd h2 (List.not_mem_nil st)

/-! ### Concrete fixture used by the witnesses of the rotation claims -/

/-- Requester in section 10 who desires section 30. -/
def wAlice : RawStudent := ⟨1, "10", DesiredField.array ["30"], "22"⟩

/-- Parsed pool record: occupant of section 30 who desires section 10. -/
def wCarol : VStudent := ⟨3, "30", ["10"], "22"⟩

/-- The chain `findSwapCycle` finds for `wAlice` targeting section 30. -/
def wPlan : List SwapStep :=
  [⟨"10", "30", Occupant.requester wAlice, true⟩,
   ⟨"30", "10", Occupant.candidate wCarol, false⟩]

theorem rotation_closure_witness :
    2 ≤ wPlan.length ∧ wPlan.length ≤ 5 ∧
    (∃ first, wPlan.head? = some first ∧ first.fromS = "10") ∧
    (∃ last, wPlan.getLast? = some last ∧ last.toS = "10") ∧
    (∀ st ∈ wPlan, st.isCurrentUser = false →
      ∃ v, st.student = Occupant.candidate v ∧ v.current_section = st.fromS) :=
  rotation_closure "10" "30" [wCarol] 4 (some wAlice) wPlan (by decide)

theorem rotation_first_step_to_target_witness :
    ∃ c first rest, (some wAlice : Option RawStudent) = some c ∧
      wPlan = first :: rest ∧
      first.fromS = "10" ∧ first.toS = "30" ∧
      first.student = Occupant.requester c ∧ first.isCurrentUser = true :=
  rotation_first_step_to_target "10" "30" [wCarol] 4 (some wAlice) wPlan (by decide)

theorem rotation_requires_desired_target_witness :
    findSwapCycle "10" "99" [wCarol] 4 (some wAlice) = none :=
  (rotation_requires_desired_target "10" "99" [wCarol] 4).2.1 wAlice ["30"] rfl (by decide)

theorem rotation_distinct_sections_and_flags_witness :
    (wPlan.map SwapStep.fromS).Nodup ∧
    (∃ first rest, wPlan = first :: rest ∧ first.isCurrentUser = true ∧
      ∀ st ∈ rest, st.isCurrentUser = false) :=
  rotation_distinct_sections_and_flags "10" "30" [wCarol] 4 (some wAlice) wPlan
    (by decide) (by decide)

/-! ### The per-target search loop of the find-swap endpoint -/

/-- The direct-partner query of the `/api/find-swap` handler
(server.js:801-813): students currently in the target section, other than the
requester, in the requester's batch. -/
def directPartnerQuery (db : List RawStudent) (targetSection : String)
    (sid : Nat) (batch : String) : List RawStudent :=
  db.filter fun p => p.current_section == targetSection && p.id != sid && p.batch == batch

/-- The partner test of server.js:816-824: the partner's `desired_sections`
parses to an array containing the given section; a missing, malformed or
non-array value yields `false` (the exception is caught in the callback). -/
def wantsSection (p : RawStudent) (sec : String) : Bool :=
  match p.desired_sections with
  | DesiredField.array xs => xs.contains sec
  | _ => false

/-- The two kinds of plan the handler can return for a target section. -/
inductive SwapPlan where
  | direct (partner : RawStudent) : SwapPlan
  | multi (path : List SwapStep) : SwapPlan
deriving DecidableEq

/-- The body of one iteration of the target loop of `/api/find-swap`
(server.js:801-872), after the self-target skip: the direct check runs
first, and only if it finds nobody is `findMultiStepSwap` consulted. -/
def searchTarget (db : List RawStudent) (student : RawStudent)
    (targetSection : String) : Option SwapPlan :=
  match (directPartnerQuery db targetSection student.id student.batch).find?
      (fun p => wantsSection p student.current_section) with
  | some partner => some (SwapPlan.direct partner)
  | none =>
      match findMultiStepSwap db student.current_section targetSection student.id
          (some student.batch) with
      | some path => some (SwapPlan.multi path)
      | none => none

/-- The target loop of `/api/find-swap` (server.js:795-875): iterate the
requester's target sections in priority order, skip a target equal to the
current section, and return the first target that admits a plan together
with that plan (`targetSection` of the JSON response). -/
def findSwapLoop (db : List RawStudent) (student : RawStudent) :
    List String → Option (String × SwapPlan)
  | [] => none
  | t :: rest =>
      if t = student.current_section then findSwapLoop db student rest
      else
        match searchTarget db student t with
        | some plan => some (t, plan)
        | none => findSwapLoop db student rest

/-- C4: the endpoint's loop respects the priority order of the target list:
for targets `[T1, T2]` (both different from the requester's current section),
if only `T2` admits a plan the result is for `T2`, and if `T1` admits a plan
the result is for `T1`. -/
theorem find_swap_priority_order (db : List RawStudent) (student : RawStudent)
    (T1 T2 : String) (h1 : T1 ≠ student.current_section)
    (h2 : T2 ≠ student.current_section) :
    (∀ p2, searchTarget db student T1 = none → searchTarget db student T2 = some p2 →
      findSwapLoop db student [T1, T2] = some (T2, p2)) ∧
    (∀ p1, searchTarget db student T1 = some p1 →
      findSwapLoop db student [T1, T2] = some (T1, p1)) := by
  constructor
  · intro p2 hn hs
    simp [findSwapLoop, h1, h2, hn, hs]
  · intro p1 hs
    simp [findSwapLoop, h1, hs]

/-- C5: whenever an eligible same-batch student currently occupies the target
section and desires the requester's current section, the per-target search
returns a direct plan — the direct check runs before any rotation search, so
a rotation is never returned for such a target. -/
theorem direct_preferred_over_rotation (db : List RawStudent) (student : RawStudent)
    (targetSection : String) (partner : RawStudent)
    (hmem : partner ∈ db) (hcur : partner.current_section = targetSection)
    (hid : partner.id ≠ student.id) (hbatch : partner.batch = student.batch)
    (hwants : wantsSection partner student.current_section = true) :
    ∃ q, searchTarget db student targetSection = some (SwapPlan.direct q) ∧
      q.current_section = targetSection ∧ q.batch = student.batch ∧
      wantsSection q student.current_section = true := by
  have hpq : partner ∈ directPartnerQuery db targetSection student.id student.batch := by
    apply List.mem_filter.mpr
    refine ⟨hmem, ?_⟩
    simp [hcur, hid, hbatch]
  cases hf : (directPartnerQuery db targetSection student.id student.batch).find?
      (fun p => wantsSection p student.current_section) with
  | none =>
      exact absurd hwants (List.find?_eq_none.mp hf partner hpq)
  | some q =>
      have hqw : wantsSection q student.current_section = true := by
        simpa using List.find?_some hf
      have hqm : q ∈ directPartnerQuery db targetSection student.id student.batch :=
        List.mem_of_find?_eq_some hf
      have hqf := List.of_mem_filter hqm
      have hqc : q.current_section = targetSection := by
        cases hc : (q.current_section == targetSection) with
        | true => exact beq_iff_eq.mp hc
        | false => simp [hc] at hqf
      have hqb : q.batch = student.batch := by
        cases hb : (q.batch == student.batch) with
        | true => exact beq_iff_eq.mp hb
        | false => simp [hb] at hqf
      refine ⟨q, ?_, hqc, hqb, hqw⟩
      simp [searchTarget, hf]

/-- C6: a target equal to the requester's current section is skipped with no
search and no error — the loop continues with the remaining targets — and the
target returned by the loop is never the requester's current section. -/
theorem self_target_skipped (db : List RawStudent) (student : RawStudent) :
    (∀ t rest, t = student.current_section →
      findSwapLoop db student (t :: rest) = findSwapLoop db student rest) ∧
    (∀ ts T plan, findSwapLoop db student ts = some (T, plan) →
      T ≠ student.current_section) := by
  constructor
  · intro t rest ht
    simp [findSwapLoop, ht]
  · intro ts
    induction ts with
    | nil => intro T plan H; exact absurd H (by simp [findSwapLoop])
    | cons a rest ih =>
        intro T plan H
        by_cases ha : a = student.current_section
        · rw [findSwapLoop, if_pos ha] at H
          exact ih T plan H
        · rw [findSwapLoop, if_neg ha] at H
          cases hs : searchTarget db student a with
          | none => rw [hs] at H; exact ih T plan H
          | some q =>
              rw [hs] at H
              have : a = T := congrArg Prod.fst (Option.some_inj.mp H)
              rw [← this]
              exact ha

/-- Raw table row behind `wCarol`. -/
def wCarolRaw : RawStudent := ⟨3, "30", DesiredField.array ["10"], "22"⟩

/-- A concrete students table: the requester `wAlice` and `wCarolRaw`. -/
def wdb : List RawStudent := [wAlice, wCarolRaw]

theorem find_swap_priority_order_witness :
    findSwapLoop wdb wAlice ["99", "30"] = some ("30", SwapPlan.direct wCarolRaw) :=
  (find_swap_priority_order wdb wAlice "99" "30" (by decide) (by decide)).1
    (SwapPlan.direct wCarolRaw) (by decide) (by decide)

theorem direct_preferred_over_rotation_witness :
    ∃ q, searchTarget wdb wAlice "30" = some (SwapPlan.direct q) ∧
      q.current_section = "30" ∧ q.batch = wAlice.batch ∧
      wantsSection q wAlice.current_section = true :=
  direct_preferred_over_rotation wdb wAlice "30" wCarolRaw
    (by decide) (by decide) (by decide) (by decide) (by decide)

theorem self_target_skipped_witness :
    findSwapLoop wdb wAlice ["10"] = findSwapLoop wdb wAlice [] ∧
    ("30" : String) ≠ wAlice.current_section :=
  ⟨(self_target_skipped wdb wAlice).1 "10" [] rfl,
   (self_target_skipped wdb wAlice).2 ["99", "30"] "30" (SwapPlan.direct wCarolRaw)
     (by decide)⟩

/-! ### Eligibility filtering (claim C7) -/

/-- C7: a record whose desired-section data is missing, unparseable, not a
list, or an empty list is excluded from the eligible set on a per-record
basis, and its presence never changes the outcome of the rotation search,
which proceeds over the remaining well-formed records. -/
theorem malformed_record_excluded (r : RawStudent)
    (hbad : parseEligible r.desired_sections = none) :
    (∀ l1 l2, toValidStudents (l1 ++ r :: l2) = toValidStudents (l1 ++ l2)) ∧
    (∀ l1 l2 fromSection toSection excludeId batch, r.id ≠ excludeId →
      findMultiStepSwap (l1 ++ r :: l2) fromSection toSection excludeId batch =
        findMultiStepSwap (l1 ++ l2) fromSection toSection excludeId batch) := by
  have hval : toValid r = none := by rw [toValid, hbad]
  have hdrop : ∀ l1 l2 : List RawStudent,
      toValidStudents (l1 ++ r :: l2) = toValidStudents (l1 ++ l2) := by
    intro l1 l2
    unfold toValidStudents
    rw [List.filterMap_append, List.filterMap_append]
    congr 1
    rw [List.filterMap_cons, hval]
  refine ⟨hdrop, ?_⟩
  intro l1 l2 fromSection toSection excludeId batch hid
  have hfind : (l1 ++ r :: l2).find? (fun s => s.id == excludeId) =
      (l1 ++ l2).find? (fun s => s.id == excludeId) := by
    rw [List.find?_append, List.find?_append]
    congr 1
    simp [List.find?_cons, hid]
  have hpool : ∀ fb : Option String,
      toValidStudents (studentsQuery (l1 ++ r :: l2) excludeId fb) =
      toValidStudents (studentsQuery (l1 ++ l2) excludeId fb) := by
    intro fb
    unfold studentsQuery
    rw [List.filter_append, List.filter_append, List.filter_cons]
    cases hpr : (r.id != excludeId &&
        (match fb with | some b => r.batch == b | none => true)) with
    | false => simp [hpr]
    | true =>
        simp only [hpr, if_true]
        exact hdrop _ _
  simp only [findMultiStepSwap]
  rw [hfind, hpool]

/-- Concrete malformed row used in the C7 witness. -/
def wBad : RawStudent := ⟨9, "20", DesiredField.malformed, "22"⟩

theorem malformed_record_excluded_witness :
    toValidStudents ([wCarolRaw] ++ wBad :: []) = toValidStudents ([wCarolRaw] ++ []) ∧
    findMultiStepSwap ([wAlice] ++ wBad :: [wCarolRaw]) "10" "30" 1 (some "22") =
      findMultiStepSwap ([wAlice] ++ [wCarolRaw]) "10" "30" 1 (some "22") :=
  ⟨(malformed_record_excluded wBad rfl).1 [wCarolRaw] [],
   (malformed_record_excluded wBad rfl).2 [wAlice] [wCarolRaw] "10" "30" 1 (some "22")
     (by decide)⟩

/-! ### The candidate cap (claim C8) -/

/-- C8 (amended): at every step the candidate list is the first five eligible
occupants in the order the pool was supplied (the database result order — the
pool query of the rotation search carries no ORDER BY), so no more than five
candidates are explored at any step and each kept candidate satisfies the
step's eligibility predicate. -/
theorem candidate_cap (students : List VStudent) (fromSection : String)
    (toSection : Option String) (excl : List String) :
    (getCandidates students fromSection toSection excl).length ≤ 5 ∧
    getCandidates students fromSection toSection excl <+:
      students.filter (candPredB fromSection toSection excl) ∧
    ∀ x ∈ getCandidates students fromSection toSection excl,
      candPredB fromSection toSection excl x = true := by
  refine ⟨?_, List.take_prefix 5 _, ?_⟩
  · unfold getCandidates
    rw [List.length_take]
    exact min_le_left _ _
  · intro x hx
    exact List.of_mem_filter (List.mem_of_mem_take hx)

/-- A pool of six eligible occupants of section 20, supplied in descending
identifier order (nothing in the rotation search's pool query orders the
rows). -/
def cpool : List VStudent :=
  [⟨6, "20", ["10"], "22"⟩, ⟨5, "20", ["10"], "22"⟩, ⟨4, "20", ["10"], "22"⟩,
   ⟨3, "20", ["10"], "22"⟩, ⟨2, "20", ["10"], "22"⟩, ⟨1, "20", ["10"], "22"⟩]

/-- C8 counterexample: on `cpool` the student with the lowest identifier (1)
is an eligible occupant of the searched section yet is not among the five
kept candidates, and every kept candidate has a strictly larger identifier —
so the five kept are not the five lowest-identifier eligible occupants and
the list is not in ascending identifier order. -/
theorem candidate_cap_counterexample :
    (⟨1, "20", ["10"], "22"⟩ : VStudent) ∈ cpool.filter (candPredB "20" none []) ∧
    (⟨1, "20", ["10"], "22"⟩ : VStudent) ∉ getCandidates cpool "20" none [] ∧
    ∀ y ∈ getCandidates cpool "20" none [], 1 < y.id := by decide

/-! ### The batch any-match checker (claim C9) -/

/-- Direct-match test of `checkAllStudentMatches` (server.js:1604-1612). -/
def hasDirectMatch (valids : List VStudent) (student : VStudent) (target : String) : Bool :=
  valids.any fun other =>
    other.current_section == target && other.id != student.id &&
      other.desired_sections_parsed.contains student.current_section

/-- Simplified 2-hop rotation test of `checkAllStudentMatches`
(server.js:1614-1640). -/
def hasTwoHopMatch (valids : List VStudent) (student : VStudent) (target : String) : Bool :=
  let otherStudents := valids.filter fun s => s.id != student.id
  let studentsInTarget := otherStudents.filter fun s => s.current_section == target
  studentsInTarget.any fun middleStudent =>
    middleStudent.desired_sections_parsed.any fun middleDesired =>
      if middleDesired = student.current_section ∨ middleDesired = target then false
      else
        otherStudents.any fun s =>
          s.current_section == middleDesired &&
            s.desired_sections_parsed.contains student.current_section

/-- The per-student loop body of `checkAllStudentMatches`
(server.js:1598-1648): some desired target other than the current section
admits a direct match or a 2-hop match. -/
def studentHasMatch (valids : List VStudent) (student : VStudent) : Bool :=
  student.desired_sections_parsed.any fun target =>
    if target = student.current_section then false
    else hasDirectMatch valids student target || hasTwoHopMatch valids student target

/-- `checkAllStudentMatches` (server.js:1561-1657) as an association list
from student id to boolean: rows with missing, malformed, non-array or empty
desired sections are set to `false` during the parsing pass; well-formed rows
get the direct-or-2-hop result over the parsed cohort. -/
def checkAllStudentMatches (allStudents : List RawStudent) : List (Nat × Bool) :=
  (allStudents.filter fun r => (parseEligible r.desired_sections).isNone).map
      (fun r => (r.id, false)) ++
    (toValidStudents allStudents).map fun v =>
      (v.id, studentHasMatch (toValidStudents allStudents) v)

theorem lookup_isSome_of_key_mem (k : Nat) (l : List (Nat × Bool))
    (h : k ∈ l.map Prod.fst) : ∃ b, l.lookup k = some b := by
  induction l with
  | nil => simp at h
  | cons a t ih =>
      obtain ⟨ka, va⟩ := a
      by_cases hk : k = ka
      · exact ⟨va, by simp [List.lookup, hk]⟩
      · have hmem : k ∈ t.map Prod.fst := by
          rcases List.mem_cons.mp h with h1 | h2
          · exact absurd h1 hk
          · exact h2
        obtain ⟨b, hb⟩ := ih hmem
        refine ⟨b, ?_⟩
        have hbeq : (k == ka) = false := by simp [hk]
        simp [List.lookup, hbeq, hb]

/-- The fixture cohort of the spec: Alice in 10 wanting 20 or 30, Bob in 20
wanting 30 or 40, Carol in 30 wanting 10 or 40. -/
def fixtureAlice : RawStudent := ⟨1, "10", DesiredField.array ["20", "30"], "22"⟩

def fixtureBob : RawStudent := ⟨2, "20", DesiredField.array ["30", "40"], "22"⟩

def fixtureCarol : RawStudent := ⟨3, "30", DesiredField.array ["10", "40"], "22"⟩

def fixturePool : List RawStudent := [fixtureAlice, fixtureBob, fixtureCarol]

/-- C9: the batch checker assigns a boolean to every student of the supplied
cohort, and on the fixture pool it reports `true` for Alice (via the 2-hop
check through Bob and Carol) and `true` for Carol (via the direct match with
Alice). -/
theorem check_all_matches_correct :
    (∀ (l : List RawStudent) (r : RawStudent), r ∈ l →
      ∃ b, (checkAllStudentMatches l).lookup r.id = some b) ∧
    (checkAllStudentMatches fixturePool).lookup 1 = some true ∧
    (checkAllStudentMatches fixturePool).lookup 3 = some true := by
  refine ⟨?_, by decide, by decide⟩
  intro l r hr
  apply lookup_isSome_of_key_mem
  unfold checkAllStudentMatches
  rw [List.map_append]
  apply List.mem_append.mpr
  cases hpe : parseEligible r.desired_sections with
  | none =>
      left
      rw [List.map_map]
      apply List.mem_map.mpr
      refine ⟨r, ?_, rfl⟩
      apply List.mem_filter.mpr
      exact ⟨hr, by simp [hpe]⟩
  | some xs =>
      right
      rw [List.map_map]
      apply List.mem_map.mpr
      refine ⟨⟨r.id, r.current_section, xs, r.batch⟩, ?_, rfl⟩
      apply List.mem_filterMap.mpr
      exact ⟨r, hr, by rw [toValid, hpe]⟩

theorem check_all_matches_correct_witness :
    (∃ b, (checkAllStudentMatches fixturePool).lookup fixtureAlice.id = some b) ∧
    (checkAllStudentMatches fixturePool).lookup 1 = some true :=
  ⟨check_all_matches_correct.1 fixturePool fixtureAlice (by decide),
   check_all_matches_correct.2.1⟩
